import Mathlib

set_option maxRecDepth 8192

/-!
Shallow embedding of `demcoreg/dem_mask.py`: control-surface mask derivation
for DEM co-registration.

Rasters are modelled as flat lists of cells: `List ℚ` for numeric grids,
`List (Option ℚ)` for masked (no-data-aware) grids, `List Bool` for boolean
masks (`true` = valid control surface).  All grids entering the mask
compositor are co-registered (`warplib.memwarp_multi`), so equal length is
the standing invariant.
-/

/-- Valid observations of a per-cell temporal series: `proc_modscag` builds
`ma_stack` with `np.ma.masked_greater(vals, 100)`, so values strictly greater
than 100 (clouds, fill codes, vrt no-data 255) are excluded and a value of
exactly 100 still contributes. -/
def validObs (vals : List ℕ) : List ℕ :=
  vals.filter (fun v => decide (v ≤ 100))

/-- Per-cell valid-date count of the temporal composite: `ma_stack.count`
followed by `.astype(np.uint8)`, which wraps modulo 256.  (`masked_equal 0`
with fill value 0 writes 0 for a zero count either way.) -/
def stack_count (vals : List ℕ) : ℕ :=
  (validObs vals).length % 256

/-- Per-cell minimum over valid dates (`ma_stack.min(axis=0)`); `none` models
a fully masked cell (no valid date). -/
def stack_min (vals : List ℕ) : Option ℕ :=
  match validObs vals with
  | [] => none
  | v :: vs => some (vs.foldl Nat.min v)

/-- Per-cell maximum over valid dates (`ma_stack.max(axis=0)`). -/
def stack_max (vals : List ℕ) : Option ℕ :=
  match validObs vals with
  | [] => none
  | v :: vs => some (vs.foldl Nat.max v)

/-- Insertion into a sorted list, for the sort underlying the median. -/
def insertSorted (x : ℕ) : List ℕ → List ℕ
  | [] => [x]
  | y :: ys => if x ≤ y then x :: y :: ys else y :: insertSorted x ys

/-- Insertion sort on naturals. -/
def sortNat : List ℕ → List ℕ
  | [] => []
  | x :: xs => insertSorted x (sortNat xs)

/-- Twice the per-cell median over valid dates (kept integral): twice the
middle element for an odd count, sum of the two middle elements for an even
count. -/
def median2 (vals : List ℕ) : Option ℕ :=
  let vs := sortNat (validObs vals)
  let n := vs.length
  if n = 0 then none
  else if n % 2 = 1 then some (2 * (vs.get? (n / 2)).getD 0)
  else some ((vs.get? (n / 2 - 1)).getD 0 + (vs.get? (n / 2)).getD 0)

/-- Exact per-cell median over valid dates, as computed by `np.ma.median`
before the `uint8` cast: middle element for an odd count, conventional
average of the two middle elements for an even count. -/
def medianQ (vals : List ℕ) : Option ℚ :=
  (median2 vals).map (fun m : ℕ => (m : ℚ) / 2)

/-- Stored per-cell median: `np.ma.median(...).astype(np.uint8)` truncates the
float median toward zero (floor, for the non-negative values here, so integer
division by 2 of the doubled median) and wraps modulo 256. -/
def stack_med (vals : List ℕ) : Option ℕ :=
  (median2 vals).map (fun m => (m / 2) % 256)

/-- Axis-aligned bounding box with integer corners, modelling the footprint
and coverage geometries compared in `main`. -/
structure Rect where
  xmin : Int
  ymin : Int
  xmax : Int
  ymax : Int
deriving DecidableEq

/-- Containment of closed boxes, modelling `ogr.Geometry.Contains` for the
coverage test `lulc_geom.Contains(dem_geom)`. -/
def rectContains (a b : Rect) : Bool :=
  a.xmin ≤ b.xmin && b.xmax ≤ a.xmax && a.ymin ≤ b.ymin && b.ymax ≤ a.ymax

/-- Non-empty overlap of closed boxes (`Intersects`). -/
def rectIntersects (a b : Rect) : Bool :=
  a.xmin ≤ b.xmax && b.xmin ≤ a.xmax && a.ymin ≤ b.ymax && b.ymin ≤ a.ymax

/-- Land-cover source selection in `main`: the DEM footprint is reprojected
into the land-cover CRS (`geolib.geom_transform`, modelled by `reproject`);
if the NLCD coverage geometry contains it the source is `nlcd`, otherwise the
global bare-ground product is used. -/
def selectLulcSource (reproject : Rect → Rect) (lulcGeom demGeom : Rect) : String :=
  if rectContains lulcGeom (reproject demGeom) then "nlcd" else "bareground"

/-- Modelled from the spec: `geolib.shp2array` (the vector-rasterizer
collaborator, not part of this repository) rasterizes the glacier and
perennial-snowfield outline polygons onto the reference grid, producing the
raster returned by `mask_glaciers`: 0/false for every cell inside an outline
polygon and 1/true outside, so that multiplying a land-cover mask by it
forces glacier cells invalid.  `insideGlacier` is the point-in-polygon test
on cell indices, `n` the grid size. -/
def mask_glaciers (insideGlacier : ℕ → Bool) (n : ℕ) : List Bool :=
  (List.range n).map (fun i => !(insideGlacier i))

/-- Glacier suppression step shared by `mask_nlcd` and `mask_bareground`:
`if icemask is not None: mask *= icemask`, an elementwise multiplication of
boolean rasters. -/
def applyIce : Option (List Bool) → List Bool → List Bool
  | none, m => m
  | some ice, m => List.zipWith and m ice

/-- Rock mask from NLCD land-cover codes (`mask_nlcd`): class 31 is exposed
rock, optionally unioned with class 12 (ice); an unknown `valid` keyword
yields no mask (`None`).  The glacier raster is multiplied in when present. -/
def mask_nlcd (l : List Int) (valid : String) (ice : Option (List Bool)) : Option (List Bool) :=
  let m : Option (List Bool) :=
    if valid = "rock" then some (l.map (fun v => v == 31))
    else if valid = "rock+ice" then some (l.map (fun v => v == 31 || v == 12))
    else none
  m.map (fun mm => applyIce ice mm)

/-- Bare-ground mask (`mask_bareground`): a threshold outside [0,100] is a
fatal `sys.exit`; otherwise the mask is the strict comparison `l > minperc`,
with the glacier raster multiplied in when present. -/
def mask_bareground (l : List ℚ) (minperc : ℚ) (ice : Option (List Bool)) :
    Except String (List Bool) :=
  if minperc < 0 ∨ 100 < minperc then Except.error "Invalid bare ground percentage"
  else Except.ok (applyIce ice (l.map (fun v => decide (minperc < v))))

/-- MODSCAG fractional-snow-cover mask step of `main`: a no-data cell of the
composite is filled with the sentinel 0 (`modscag_perc.filled(0)`), the fill
is compared `>= modscag_thresh` (covered), and the result inverted so that
`true` marks snow-free cells. -/
def modscag_mask (perc : List (Option ℚ)) (thresh : ℚ) : List Bool :=
  perc.map (fun o => !(decide (thresh ≤ o.getD 0)))

/-- SNODAS snow-depth mask step of `main`: depth (metres) above
`snodas_max_depth` is masked, and no-data cells of the depth raster stay
masked; the mask is the negated mask-array mask, so `true` = snow-free. -/
def snodas_mask (depth : List (Option ℚ)) (maxDepth : ℚ) : List Bool :=
  depth.map (fun o => match o with
    | none => false
    | some d => decide (d ≤ maxDepth))

/-- Validity mask of the DEM itself: `~np.ma.getmaskarray(dem)` — `true`
exactly at cells carrying a value. -/
def demValidMask (dem : List (Option ℚ)) : List Bool :=
  dem.map Option.isSome

/-- One AND step of the mask compositor:
`newmask = np.logical_and(srcmask, newmask)`. -/
def andMask (src base : List Bool) : List Bool :=
  List.zipWith and src base

/-- Folding one optional source into the chain: an absent (`None`, culled)
source leaves the accumulated mask unchanged. -/
def applySrc (base : List Bool) (o : Option (List Bool)) : List Bool :=
  match o with
  | none => base
  | some s => andMask s base

/-- The mask compositor of `main`: starting from the DEM validity mask, AND
in every present per-source mask in order. -/
def composeMasks (base : List Bool) (srcs : List (Option (List Bool))) : List Bool :=
  srcs.foldl applySrc base

/-- Final control-surface mask: DEM validity ANDed with whichever of the
rock, SNODAS, MODSCAG and TOA masks were produced. -/
def finalMask (dem : List (Option ℚ)) (rockm snodasm modscagm toam : Option (List Bool)) :
    List Bool :=
  composeMasks (demValidMask dem) [rockm, snodasm, modscagm, toam]

/-- The written reference DEM (`*_ref.tif`): the final mask is inverted and
used as the no-data mask of the output (`np.ma.array(dem, mask=~newmask)`),
so cells where the final mask is `false` are no-data in the output. -/
def refDem (dem : List (Option ℚ)) (rockm snodasm modscagm toam : Option (List Bool)) :
    List (Option ℚ) :=
  List.zipWith (fun v b => if b then v else none) dem (finalMask dem rockm snodasm modscagm toam)

/-- Number of `true` (valid) cells of a boolean mask. -/
def countTrue (m : List Bool) : ℕ :=
  (m.filter (fun b => b)).length

/-- Co-registration invariant for an optional source mask: when present it
has the length of the reference grid. -/
def sameLen (n : ℕ) (o : Option (List Bool)) : Prop :=
  ∀ m, o = some m → m.length = n

/-! Helper lemmas about cell access in list-modelled rasters. -/

/-- Cell access commutes with `map`. -/
theorem getq_map {α β : Type} (f : α → β) (l : List α) (i : ℕ) :
    (l.map f).get? i = (l.get? i).map f := by
  simp only [List.get?_eq_getElem?, List.getElem?_map]

/-- Cell access on a `zipWith` of two rasters. -/
theorem getq_zipWith {α β γ : Type} (f : α → β → γ) (a : List α) (b : List β) (i : ℕ)
    (x : α) (y : β) (hx : a.get? i = some x) (hy : b.get? i = some y) :
    (List.zipWith f a b).get? i = some (f x y) := by
  rw [List.get?_zipWith', hx, hy]
  rfl

/-- A successfully read cell index lies inside the raster. -/
theorem getq_lt {α : Type} (l : List α) (i : ℕ) (x : α) (h : l.get? i = some x) :
    i < l.length := by
  rw [List.get?_eq_getElem?] at h
  exact (List.getElem?_eq_some_iff.mp h).1

/-- Every in-range index reads some cell. -/
theorem lt_getq {α : Type} (l : List α) (i : ℕ) (h : i < l.length) :
    ∃ x, l.get? i = some x := by
  rw [List.get?_eq_getElem?]
  exact ⟨l[i], List.getElem?_eq_some_iff.mpr ⟨h, rfl⟩⟩

/-- Cell access on a `List.range`-built raster. -/
theorem getq_range (n i : ℕ) (h : i < n) : (List.range n).get? i = some i := by
  simp [List.get?_eq_getElem?, List.getElem?_range h]

/-- Folding a co-registered optional source preserves the grid size. -/
theorem applySrc_length (base : List Bool) (o : Option (List Bool))
    (h : sameLen base.length o) : (applySrc base o).length = base.length := by
  cases o with
  | none => rfl
  | some s =>
    have hs : s.length = base.length := h s rfl
    simp [applySrc, andMask, hs]

/-- A cell invalid in the starting mask stays invalid through the whole
AND-chain. -/
theorem composeMasks_get_false :
    ∀ (srcs : List (Option (List Bool))) (base : List Bool) (i : ℕ),
      (∀ o ∈ srcs, sameLen base.length o) → base.get? i = some false →
      (composeMasks base srcs).get? i = some false := by
  intro srcs
  induction srcs with
  | nil =>
    intro base i _ hb
    simpa [composeMasks] using hb
  | cons o rest ih =>
    intro base i h hb
    have hmem : sameLen base.length o := h o (List.mem_cons_self o rest)
    have hlen : (applySrc base o).length = base.length := applySrc_length base o hmem
    have hb2 : (applySrc base o).get? i = some false := by
      cases o with
      | none => exact hb
      | some s =>
        have hs : s.length = base.length := hmem s rfl
        have hi : i < base.length := getq_lt base i false hb
        obtain ⟨sv, hsv⟩ := lt_getq s i (by omega)
        have hz := getq_zipWith and s base i sv false hsv hb
        simpa [applySrc, andMask, Bool.and_false] using hz
    have h2 : ∀ o2 ∈ rest, sameLen (applySrc base o).length o2 := by
      intro o2 hm2
      rw [hlen]
      exact h o2 (List.mem_cons_of_mem _ hm2)
    have := ih (applySrc base o) i h2 hb2
    simpa [composeMasks] using this

/-- ANDing a source mask in never increases the count of valid cells. -/
theorem countTrue_and_le (s : List Bool) :
    ∀ m : List Bool, countTrue (List.zipWith and s m) ≤ countTrue m := by
  induction s with
  | nil => intro m; simp [countTrue]
  | cons a ss ih =>
    intro m
    cases m with
    | nil => simp [countTrue]
    | cons b ms =>
      have := ih ms
      cases a <;> cases b <;>
        simp [countTrue, List.filter_cons] at this ⊢ <;> omega

/-- A cell valid after ANDing a source mask in was valid before. -/
theorem getq_and_true (s m : List Bool) (i : ℕ)
    (h : (List.zipWith and s m).get? i = some true) : m.get? i = some true := by
  obtain ⟨x, y, hx, hy, hxy⟩ := (List.get?_zipWith_eq_some and s m true i).mp h
  have hy2 : y = true := ((Bool.and_eq_true x y).mp hxy).2
  rw [hy, hy2]

/-- The stored median is the floor (truncation toward zero) of the exact
median, modulo 256. -/
theorem stack_med_floor (vals : List ℕ) :
    stack_med vals = (medianQ vals).map (fun q => Int.toNat ⌊q⌋ % 256) := by
  cases h : median2 vals with
  | none => simp [stack_med, medianQ, h]
  | some m =>
    have hfl : ⌊((m : ℚ) / 2)⌋ = (m : ℤ) / 2 := by
      rw [show ((2 : ℚ)) = ((2 : ℕ) : ℚ) from by norm_num]
      exact_mod_cast Rat.floor_natCast_div_natCast m 2
    simp only [stack_med, medianQ, h, Option.map_some']
    rw [hfl]
    congr 1

/-! Claim theorems. -/

/-- C1 (counterexample): the claim says a no-data cell of the fractional
snow-cover source yields `false` (invalid) in the MODSCAG mask.  At the
default threshold 50, a single no-data cell instead yields `true`: the
sentinel fill 0 is below the `>= 50` covered test, so the inverted mask
marks the cell snow-free (valid). -/
theorem modscag_nodata_counterexample :
    modscag_mask [(none : Option ℚ)] 50 = [true] ∧
    modscag_mask [(none : Option ℚ)] 50 ≠ [false] := by
  have hn : ¬((50 : ℚ) ≤ 0) := by norm_num
  have heq : modscag_mask [(none : Option ℚ)] 50 = [true] := by
    simp [modscag_mask, Option.getD, hn]
  refine ⟨heq, ?_⟩
  rw [heq]
  simp

/-- C1 (amended): in the fractional-snow-cover mask derivation a no-data
cell is filled with the sentinel 0 before thresholding; for every positive
threshold (the default is 50) the fill falls below the covered test, so the
no-data cell is classified snow-free and yields `true` (valid) in that
source's mask — the opposite of the conservative default the spec states. -/
theorem modscag_nodata_amended (perc : List (Option ℚ)) (thresh : ℚ) (h : 0 < thresh)
    (i : ℕ) (hi : perc.get? i = some none) :
    (modscag_mask perc thresh).get? i = some true := by
  rw [modscag_mask, getq_map, hi]
  simp [Option.getD, not_le]
  exact h

/-- C1 (witness for the amended claim): the no-data cell at the default
threshold 50. -/
theorem modscag_nodata_amended_witness :
    (modscag_mask [(none : Option ℚ)] 50).get? 0 = some true :=
  modscag_nodata_amended [none] 50 (by norm_num) 0 rfl

/-- C2: an absent source (its dataset entry `None`, culled from the bundle)
is simply omitted from the AND-chain — composition with it is identical to
composition without it, and a lone absent source leaves the starting mask
unchanged rather than producing an all-false mask or a failure. -/
theorem absent_source_skipped (base : List Bool) (pre post : List (Option (List Bool))) :
    composeMasks base (pre ++ none :: post) = composeMasks base (pre ++ post) ∧
    composeMasks [true] [(none : Option (List Bool))] = [true] := by
  constructor
  · simp [composeMasks, List.foldl_append, applySrc]
  · rfl

/-- C3: temporal compositing excludes values strictly greater than 100 (a
value of exactly 100 still contributes), `count` is the number of remaining
valid dates, `min` and `max` are taken over them, the median uses the
conventional even-count averaging rule, and the 3-date series
`[20, invalid, 60]` yields `count = 2`, `min = 20`, `max = 60`,
`median = 40`. -/
theorem modscag_composite (vals : List ℕ) (h : (validObs vals).length < 256) :
    stack_count vals = (validObs vals).length ∧
    (∀ v, v ∈ validObs vals ↔ v ∈ vals ∧ v ≤ 100) ∧
    stack_count [20, 255, 60] = 2 ∧
    stack_min [20, 255, 60] = some 20 ∧
    stack_max [20, 255, 60] = some 60 ∧
    medianQ [20, 255, 60] = some 40 ∧
    stack_med [20, 255, 60] = some 40 := by
  refine ⟨Nat.mod_eq_of_lt h, ?_, by decide, by decide, by decide, ?_, by decide⟩
  · intro v
    simp [validObs, List.mem_filter]
  · have h2 : median2 [20, 255, 60] = some 80 := by decide
    norm_num [medianQ, h2]

/-- C3 (witness): the composite rules evaluated on the spec's 3-date
example series. -/
theorem modscag_composite_witness :
    stack_count [20, 255, 60] = (validObs [20, 255, 60]).length ∧
    (∀ v, v ∈ validObs [20, 255, 60] ↔ v ∈ [20, 255, 60] ∧ v ≤ 100) ∧
    stack_count [20, 255, 60] = 2 ∧
    stack_min [20, 255, 60] = some 20 ∧
    stack_max [20, 255, 60] = some 60 ∧
    medianQ [20, 255, 60] = some 40 ∧
    stack_med [20, 255, 60] = some 40 :=
  modscag_composite [20, 255, 60] (by decide)

/-- C4: the Source Selector returns the primary product (`nlcd`) iff the
primary coverage geometry contains the reprojected DEM footprint; a
footprint that intersects without containment resolves to the fallback
(`bareground`).  The closed conjuncts are the spec's bounding-box
examples. -/
theorem lulc_source_selection (reproject : Rect → Rect) (cov fp : Rect) :
    (selectLulcSource reproject cov fp = "nlcd" ↔
      rectContains cov (reproject fp) = true) ∧
    (rectIntersects cov (reproject fp) = true →
      rectContains cov (reproject fp) = false →
      selectLulcSource reproject cov fp = "bareground") ∧
    selectLulcSource id ⟨0, 0, 100, 100⟩ ⟨10, 10, 20, 20⟩ = "nlcd" ∧
    selectLulcSource id ⟨0, 0, 100, 100⟩ ⟨95, 95, 105, 105⟩ = "bareground" := by
  refine ⟨?_, ?_, by decide, by decide⟩
  · unfold selectLulcSource
    cases hcc : rectContains cov (reproject fp)
    · simp [hcc]
    · simp [hcc]
  · intro _ hf
    unfold selectLulcSource
    simp [hf]

/-- C4 (witness): the partially overlapping footprint resolves to the
fallback through the containment rule. -/
theorem lulc_source_selection_witness :
    rectIntersects ⟨0, 0, 100, 100⟩ (id (⟨95, 95, 105, 105⟩ : Rect)) = true ∧
    rectContains ⟨0, 0, 100, 100⟩ (id (⟨95, 95, 105, 105⟩ : Rect)) = false ∧
    selectLulcSource id ⟨0, 0, 100, 100⟩ ⟨95, 95, 105, 105⟩ = "bareground" :=
  ⟨by decide, by decide,
    (lulc_source_selection id ⟨0, 0, 100, 100⟩ ⟨95, 95, 105, 105⟩).2.1 (by decide) (by decide)⟩

/-- C5: the bare-ground rule is a strict greater-than comparison: with an
in-range threshold (and no glacier raster multiplied in) the mask is exactly
`l > minperc` cellwise, a cell equal to the default threshold 80 is not
valid, and 80.1 is valid. -/
theorem bareground_strict_threshold (l : List ℚ) (p : ℚ) (h0 : 0 ≤ p) (h1 : p ≤ 100) :
    mask_bareground l p none = Except.ok (l.map (fun v => decide (p < v))) ∧
    mask_bareground [(80 : ℚ)] 80 none = Except.ok [false] ∧
    mask_bareground [(801 : ℚ) / 10] 80 none = Except.ok [true] := by
  have hcond : ¬(p < 0 ∨ 100 < p) := by
    push_neg
    exact ⟨h0, h1⟩
  refine ⟨?_, ?_, ?_⟩
  · simp [mask_bareground, hcond, applyIce]
  · have hc2 : ¬((80 : ℚ) < 0 ∨ 100 < (80 : ℚ)) := by norm_num
    have hlt : ¬((80 : ℚ) < 80) := lt_irrefl 80
    simp [mask_bareground, hc2, applyIce, hlt]
  · have hc2 : ¬((80 : ℚ) < 0 ∨ 100 < (80 : ℚ)) := by norm_num
    have hlt : (80 : ℚ) < 801 / 10 := by norm_num
    simp [mask_bareground, hc2, applyIce, hlt]

/-- C5 (witness): the strict rule at the default threshold 80 on the cell
values 80 and 80.1. -/
theorem bareground_strict_threshold_witness :
    mask_bareground [(50 : ℚ)] 80 none =
      Except.ok ([(50 : ℚ)].map (fun v => decide ((80 : ℚ) < v))) ∧
    mask_bareground [(80 : ℚ)] 80 none = Except.ok [false] ∧
    mask_bareground [(801 : ℚ) / 10] 80 none = Except.ok [true] :=
  bareground_strict_threshold [(50 : ℚ)] 80 (by norm_num) (by norm_num)

/-- C6: the bare-ground derivation aborts (fatal `sys.exit`) exactly when the
threshold lies outside [0,100]; every in-range threshold, the boundary values
0 and 100 included, produces a mask. -/
theorem bareground_threshold_domain (l : List ℚ) (p : ℚ) (ice : Option (List Bool)) :
    mask_bareground l p ice = Except.error "Invalid bare ground percentage" ↔
      (p < 0 ∨ 100 < p) := by
  unfold mask_bareground
  by_cases hc : p < 0 ∨ 100 < p
  · simp [hc]
  · simp [hc]

/-- A cell inside a glacier outline is forced `false` by the multiplicative
suppression raster, whatever the land-cover mask held there. -/
theorem applyIce_glacier_false (m : List Bool) (inside : ℕ → Bool) (n i : ℕ)
    (hlen : m.length = n) (hi : i < n) (hin : inside i = true) :
    (applyIce (some (mask_glaciers inside n)) m).get? i = some false := by
  obtain ⟨mv, hmv⟩ := lt_getq m i (by omega)
  have hg : (mask_glaciers inside n).get? i = some false := by
    rw [mask_glaciers, getq_map, getq_range n i hi]
    simp [hin]
  have hz := getq_zipWith and m (mask_glaciers inside n) i mv false hmv hg
  simpa [applyIce, Bool.and_false] using hz

/-- C8: glacier suppression — every cell inside a supplied glacier or
perennial-snowfield outline polygon is `false` in both the NLCD rock mask
and the bare-ground mask, whatever its land-cover class or bare-ground
percentage, because the rasterized outline is multiplied into the
land-cover-derived mask. -/
theorem glacier_suppression (lR : List Int) (lB : List ℚ) (p : ℚ)
    (h0 : 0 ≤ p) (h1 : p ≤ 100) (inside : ℕ → Bool) (i : ℕ)
    (hiR : i < lR.length) (hiB : i < lB.length) (hin : inside i = true) :
    (∀ m, mask_nlcd lR "rock" (some (mask_glaciers inside lR.length)) = some m →
      m.get? i = some false) ∧
    (∀ m, mask_bareground lB p (some (mask_glaciers inside lB.length)) = Except.ok m →
      m.get? i = some false) := by
  constructor
  · intro m hm
    have heq : mask_nlcd lR "rock" (some (mask_glaciers inside lR.length)) =
        some (applyIce (some (mask_glaciers inside lR.length))
          (lR.map (fun v => v == 31))) := rfl
    rw [heq] at hm
    injection hm with hm2
    rw [← hm2]
    exact applyIce_glacier_false _ inside lR.length i (by simp) hiR hin
  · intro m hm
    have hcond : ¬(p < 0 ∨ 100 < p) := by
      push_neg
      exact ⟨h0, h1⟩
    have heq : mask_bareground lB p (some (mask_glaciers inside lB.length)) =
        Except.ok (applyIce (some (mask_glaciers inside lB.length))
          (lB.map (fun v => decide (p < v)))) := by
      simp [mask_bareground, hcond]
    rw [heq] at hm
    injection hm with hm2
    rw [← hm2]
    exact applyIce_glacier_false _ inside lB.length i (by simp) hiB hin

/-- C8 (witness): a rock-classified cell (NLCD code 31) and a 90 percent
bare-ground cell inside a glacier outline both come out `false`. -/
theorem glacier_suppression_witness :
    (∃ m, mask_nlcd [(31 : Int)] "rock" (some (mask_glaciers (fun _ => true) 1)) = some m ∧
      m.get? 0 = some false) ∧
    (∃ m, mask_bareground [(90 : ℚ)] 80 (some (mask_glaciers (fun _ => true) 1)) =
      Except.ok m ∧ m.get? 0 = some false) := by
  have h := glacier_suppression [(31 : Int)] [(90 : ℚ)] 80 (by norm_num) (by norm_num)
    (fun _ => true) 0 (by decide) (by decide) rfl
  constructor
  · exact ⟨_, rfl, h.1 _ rfl⟩
  · have hcond : ¬((80 : ℚ) < 0 ∨ 100 < (80 : ℚ)) := by norm_num
    have heq : mask_bareground [(90 : ℚ)] 80 (some (mask_glaciers (fun _ => true) 1)) =
        Except.ok (applyIce (some (mask_glaciers (fun _ => true) 1))
          ([(90 : ℚ)].map (fun v => decide ((80 : ℚ) < v)))) := by
      simp [mask_bareground, hcond]
    exact ⟨_, heq, h.2 _ heq⟩

/-- C7: a cell that is no-data in the input DEM is `false` in the final
composite mask and no-data in the written reference DEM, whatever the other
source masks (each of the four an arbitrary present-or-absent mask of the
right size) hold there. -/
theorem dem_nodata_propagation (dem : List (Option ℚ))
    (rockm snodasm modscagm toam : Option (List Bool))
    (hr : sameLen dem.length rockm) (hs : sameLen dem.length snodasm)
    (hm : sameLen dem.length modscagm) (ht : sameLen dem.length toam)
    (i : ℕ) (hi : dem.get? i = some none) :
    (finalMask dem rockm snodasm modscagm toam).get? i = some false ∧
    (refDem dem rockm snodasm modscagm toam).get? i = some none := by
  have hbase : (demValidMask dem).get? i = some false := by
    rw [demValidMask, getq_map, hi]
    rfl
  have hblen : (demValidMask dem).length = dem.length := by
    simp [demValidMask]
  have hsr : ∀ o ∈ [rockm, snodasm, modscagm, toam], sameLen (demValidMask dem).length o := by
    intro o hmem
    rw [hblen]
    simp only [List.mem_cons, List.not_mem_nil, or_false] at hmem
    rcases hmem with h1 | h1 | h1 | h1 <;> subst h1 <;> assumption
  have hfin : (finalMask dem rockm snodasm modscagm toam).get? i = some false :=
    composeMasks_get_false [rockm, snodasm, modscagm, toam] (demValidMask dem) i hsr hbase
  refine ⟨hfin, ?_⟩
  have hz := getq_zipWith (fun v b => if b then v else none) dem
    (finalMask dem rockm snodasm modscagm toam) i none false hi hfin
  simpa [refDem] using hz

/-- C7 (witness): a one-cell no-data DEM against four all-valid source
masks. -/
theorem dem_nodata_propagation_witness :
    (finalMask [(none : Option ℚ)] (some [true]) (some [true]) (some [true])
      (some [true])).get? 0 = some false ∧
    (refDem [(none : Option ℚ)] (some [true]) (some [true]) (some [true])
      (some [true])).get? 0 = some none :=
  dem_nodata_propagation [none] (some [true]) (some [true]) (some [true]) (some [true])
    (fun m h => by injection h with h2; rw [← h2]; rfl)
    (fun m h => by injection h with h2; rw [← h2]; rfl)
    (fun m h => by injection h with h2; rw [← h2]; rfl)
    (fun m h => by injection h with h2; rw [← h2]; rfl)
    0 rfl

/-- C9: ANDing one more source mask into the chain never increases the
number of `true` cells of the final mask, and every cell valid afterwards
was valid before (subset). -/
theorem and_chain_monotonic (base : List Bool) (srcs : List (Option (List Bool)))
    (s : List Bool) :
    countTrue (composeMasks base (srcs ++ [some s])) ≤ countTrue (composeMasks base srcs) ∧
    ∀ i, (composeMasks base (srcs ++ [some s])).get? i = some true →
      (composeMasks base srcs).get? i = some true := by
  have hE : composeMasks base (srcs ++ [some s]) =
      List.zipWith and s (composeMasks base srcs) := by
    simp [composeMasks, List.foldl_append, applySrc, andMask]
  rw [hE]
  exact ⟨countTrue_and_le s (composeMasks base srcs),
    fun i hig => getq_and_true s (composeMasks base srcs) i hig⟩

/-- C9 (witness): adding an extra all-true source to a one-cell chain. -/
theorem and_chain_monotonic_witness :
    countTrue (composeMasks [true] ([] ++ [some [true]])) ≤
      countTrue (composeMasks [true] []) ∧
    (composeMasks [true] ([] : List (Option (List Bool)))).get? 0 = some true :=
  ⟨(and_chain_monotonic [true] [] [true]).1,
    (and_chain_monotonic [true] [] [true]).2 0 (by decide)⟩

/-- C10: all four temporal-composite outputs are stored as unsigned 8-bit
integers: the stored median is the floor (truncation toward zero) of the
exact even-count average modulo 256 — valid contributions 20 and 61 give an
exact median of 40.5 but a stored median of 40 — and a valid-date count
above 255 wraps modulo 256 (300 valid dates are stored as 44). -/
theorem composite_uint8_storage :
    (∀ vals, stack_med vals = (medianQ vals).map (fun q => Int.toNat ⌊q⌋ % 256)) ∧
    medianQ [20, 255, 61] = some (81 / 2) ∧
    stack_med [20, 255, 61] = some 40 ∧
    stack_count (List.replicate 300 50) = 44 := by
  refine ⟨stack_med_floor, ?_, by decide, by decide⟩
  have h2 : median2 [20, 255, 61] = some 81 := by decide
  norm_num [medianQ, h2]
